import Mathlib

/-!
# Verification of the sawtooth-core Rust signing SDK (`sdk/rust/src/signing/secp256k1.rs`)

Shallow embedding of the secp256k1 signing module and proofs of the spec's
claims about it.  Machine integers (`u8`, `u32`, `usize`) are modelled as
`Nat`; `Vec<u8>` and `&[u8]` as `List Nat`; `&str` as `List Char`;
`Result<T, E>` as `Except E T`.  A Rust panic (index out of bounds,
arithmetic overflow in debug builds) is modelled by an outer `Option`
layer: `none` means the function panics instead of returning.

The elliptic-curve library (`rust-secp256k1`), the hash library
(`rust-crypto` SHA-256) and the base58 codec (`rust_base58`) are external
collaborators of this module; they are modelled by an oracle structure
(`Secp256k1Ctx`) respectively a contract-faithful base58 decoder, each
documented at its definition.
-/

namespace Signing

/-- Errors of the external `secp256k1` crate (`secp256k1::Error`), as far as the
module under verification distinguishes them: `verify` pattern-matches only on
`IncorrectSignature`; everything else is forwarded opaquely. -/
inductive CurveError where
  | IncorrectSignature
  | InvalidMessage
  | InvalidSignature
  | InvalidPublicKey
  | InvalidSecretKey
  deriving DecidableEq, Repr

/-- The signing module's error type (`super::Error`): `ParseError(String)` for
malformed textual input, `SigningError(Box<Error>)` wrapping an underlying
curve-library error.  The `From<secp256k1::Error> for Error` impl
(secp256k1.rs lines 16-20) boxes the curve error unchanged, so the cause is
carried verbatim. -/
inductive Error where
  | ParseError (msg : String)
  | SigningError (cause : CurveError)
  deriving DecidableEq, Repr

/-! ## Hex codec (`hex_str_to_bytes`, `bytes_to_hex_str`, lines 161-183) -/

/-- Rust `char::is_digit(16)`: true for `0-9`, `a-f`, `A-F` (codepoints
48-57, 97-102, 65-70). -/
def char_is_digit16 (c : Char) : Bool :=
  (48 ≤ c.toNat && c.toNat ≤ 57) ||
  (97 ≤ c.toNat && c.toNat ≤ 102) ||
  (65 ≤ c.toNat && c.toNat ≤ 70)

/-- Rust `char::to_digit(16).unwrap()`; the source only calls it after
`is_digit(16)` has been checked, where the `unwrap` cannot fail, so the value
outside that range is irrelevant. -/
def char_to_digit16 (c : Char) : Nat :=
  if 48 ≤ c.toNat && c.toNat ≤ 57 then c.toNat - 48
  else if 97 ≤ c.toNat && c.toNat ≤ 102 then c.toNat - 87
  else c.toNat - 55

/-- The scanning loop of `hex_str_to_bytes` (lines 162-166): index of the
first character that is not a hex digit, if any; the Rust loop returns a
`ParseError` naming that index immediately. -/
def firstBadIndex : List Char → Nat → Option Nat
  | [], _ => none
  | c :: cs, i => if char_is_digit16 c then firstBadIndex cs (i + 1) else some i

/-- The pairing loop of `hex_str_to_bytes` (lines 170-173):
`input.chunks(2).map(|chunk| (chunk[0].to_digit(16) << 4 | chunk[1].to_digit(16)) as u8)`.
On an odd-length input the final chunk has length 1 and `chunk[1]` panics
with an index-out-of-bounds, modelled as `none`.  Both nibble values are
below 16 on the reachable path, so `as u8` truncates nothing and the byte is
`hi * 16 + lo`. -/
def decodePairs : List Char → Option (List Nat)
  | [] => some []
  | [_] => none
  | a :: b :: rest =>
    (decodePairs rest).map
      (fun t => (char_to_digit16 a * 16 + char_to_digit16 b) :: t)

/-- `hex_str_to_bytes` (lines 161-176): reject (with the index) at the first
non-hex character, otherwise decode consecutive pairs; `none` models the
panic on odd-length all-hex input. -/
def hex_str_to_bytes (s : List Char) : Option (Except Error (List Nat)) :=
  match firstBadIndex s 0 with
  | some i =>
    some (.error (.ParseError ("invalid character position " ++ toString i)))
  | none => (decodePairs s).map .ok

/-- `format!("{:02x}", b)` for a `u8` value: two lowercase hex characters. -/
def to_hex_char (n : Nat) : Char :=
  if n < 10 then Char.ofNat (48 + n) else Char.ofNat (87 + n)

/-- `bytes_to_hex_str` (lines 178-183): each byte as two lowercase hex
characters, concatenated in byte order. -/
def bytes_to_hex_str (b : List Nat) : List Char :=
  (b.map (fun x => [to_hex_char (x / 16), to_hex_char (x % 16)])).flatten

/-- A lowercase hex digit (`0-9`, `a-f`), the alphabet `bytes_to_hex_str`
emits. -/
def isLowerHexDigit (c : Char) : Bool :=
  (48 ≤ c.toNat && c.toNat ≤ 57) || (97 ≤ c.toNat && c.toNat ≤ 102)

/-! ## Base58 decoding (external collaborator `rust_base58`)

The base58 codec is an external library with a fixed contract (spec §1,
§4.2, §6): decoding uses the standard base58 alphabet, fails on a character
outside it, interprets the digits as a big-endian base-58 number written out
as big-endian bytes, and maps each leading `1` to a leading zero byte. -/

/-- Error type of `rust_base58::FromBase58Error`; the module's `From` impl
(lines 22-26) discards its contents. -/
inductive FromBase58Error where
  | InvalidBase58Byte (c : Char) (i : Nat)
  deriving DecidableEq, Repr

/-- The standard base58 alphabet. -/
def base58_alphabet : List Char :=
  "123456789ABCDEFGHJKLMNPQRSTUVWXYZabcdefghijkmnopqrstuvwxyz".toList

/-- Value of one base58 digit character, `none` outside the alphabet. -/
def b58_digit (c : Char) : Option Nat :=
  base58_alphabet.findIdx? (fun a => a = c)

/-- Accumulate the base-58 value of the string, failing at the first
character outside the alphabet (with its index, as the library reports). -/
def b58_value : List Char → Nat → Nat → Except FromBase58Error Nat
  | [], _, acc => .ok acc
  | c :: cs, i, acc =>
    match b58_digit c with
    | none => .error (.InvalidBase58Byte c i)
    | some d => b58_value cs (i + 1) (acc * 58 + d)

/-- Big-endian base-256 digits, with an explicit fuel bound so the
definition is structurally recursive; the fuel is consumed once per emitted
digit and `n` itself always bounds the digit count. -/
def nat_to_be_bytes_fuel : Nat → Nat → List Nat
  | 0, _ => []
  | fuel + 1, n =>
    if n = 0 then [] else nat_to_be_bytes_fuel fuel (n / 256) ++ [n % 256]

/-- Big-endian base-256 digits of a natural number (empty for zero). -/
def nat_to_be_bytes (n : Nat) : List Nat :=
  nat_to_be_bytes_fuel n n

/-- Number of leading `1` characters; each stands for one leading zero
byte. -/
def leading_ones : List Char → Nat
  | c :: cs => if c = '1' then leading_ones cs + 1 else 0
  | [] => 0

/-- Model of `rust_base58::FromBase58::from_base58` (external collaborator,
see above). -/
def from_base58 (s : List Char) : Except FromBase58Error (List Nat) :=
  match b58_value s 0 0 with
  | .error e => .error e
  | .ok v => .ok (List.replicate (leading_ones s) 0 ++ nat_to_be_bytes v)

/-! ## Key types (`Secp256k1PrivateKey`, `Secp256k1PublicKey`, lines 28-97) -/

/-- `Secp256k1PrivateKey` (line 28-30): a bare byte vector.  The Rust field
is named `private`; that word is a Lean keyword, hence `private_bytes`. -/
structure Secp256k1PrivateKey where
  private_bytes : List Nat
  deriving DecidableEq, Repr

/-- `Secp256k1PublicKey` (lines 70-72); the Rust field is also named
`private`. -/
structure Secp256k1PublicKey where
  private_bytes : List Nat
  deriving DecidableEq, Repr

/-- `Secp256k1PrivateKey::from_hex` (lines 33-40): decode, wrap, propagate
the error unchanged. -/
def Secp256k1PrivateKey.from_hex (s : List Char) :
    Option (Except Error Secp256k1PrivateKey) :=
  (hex_str_to_bytes s).map (Except.map Secp256k1PrivateKey.mk)

/-- `Vec::remove(i)`: removes and returns position `i`, shifting the rest
left; panics (`none`) when `i` is out of bounds. -/
def vec_remove (l : List Nat) (i : Nat) : Option (List Nat) :=
  if i < l.length then some (l.take i ++ l.drop (i + 1)) else none

/-- `Secp256k1PrivateKey::from_wif` (lines 42-53): base58-decode (`?` turns a
failure into `ParseError "Base58 decoding failed"` via the `From` impl),
then `remove(len-1)`, `remove(len-2)`, `remove(len-3)`, `remove(len-4)`,
`remove(0)` with `len` the original length.  In Rust `len - k` is a `usize`
subtraction: for `len < k` it panics in debug builds and wraps to a huge
index in release builds, where `remove` then panics; both cases land in the
out-of-bounds branch of `vec_remove` here (truncated `Nat` subtraction gives
index 0 on a list that is already empty in every such case), so `none`
faithfully models the panic. -/
def Secp256k1PrivateKey.from_wif (s : List Char) :
    Option (Except Error Secp256k1PrivateKey) :=
  match from_base58 s with
  | .error _ => some (.error (.ParseError "Base58 decoding failed"))
  | .ok b0 =>
    let len := b0.length
    match vec_remove b0 (len - 1) with
    | none => none
    | some b1 =>
      match vec_remove b1 (len - 2) with
      | none => none
      | some b2 =>
        match vec_remove b2 (len - 3) with
        | none => none
        | some b3 =>
          match vec_remove b3 (len - 4) with
          | none => none
          | some b4 =>
            match vec_remove b4 0 with
            | none => none
            | some b5 => some (.ok ⟨b5⟩)

/-- `PrivateKey::get_algorithm_name` (lines 57-59). -/
def Secp256k1PrivateKey.get_algorithm_name (_ : Secp256k1PrivateKey) : String :=
  "secp256k1"

/-- `PrivateKey::as_hex` (lines 61-63). -/
def Secp256k1PrivateKey.as_hex (k : Secp256k1PrivateKey) : List Char :=
  bytes_to_hex_str k.private_bytes

/-- `PrivateKey::as_slice` (lines 65-67). -/
def Secp256k1PrivateKey.as_slice (k : Secp256k1PrivateKey) : List Nat :=
  k.private_bytes

/-- `Secp256k1PublicKey::from_hex` (lines 75-82). -/
def Secp256k1PublicKey.from_hex (s : List Char) :
    Option (Except Error Secp256k1PublicKey) :=
  (hex_str_to_bytes s).map (Except.map Secp256k1PublicKey.mk)

/-- `PublicKey::get_algorithm_name` (lines 86-88). -/
def Secp256k1PublicKey.get_algorithm_name (_ : Secp256k1PublicKey) : String :=
  "secp256k1"

/-- `PublicKey::as_hex` (lines 90-92). -/
def Secp256k1PublicKey.as_hex (k : Secp256k1PublicKey) : List Char :=
  bytes_to_hex_str k.private_bytes

/-- `PublicKey::as_slice` (lines 94-96). -/
def Secp256k1PublicKey.as_slice (k : Secp256k1PublicKey) : List Nat :=
  k.private_bytes

/-! ## The curve and hash collaborators (`Secp256k1Algorithm` state)

`Secp256k1Algorithm` owns one `secp256k1::Secp256k1` context (lines 99-109).
The curve arithmetic and SHA-256 are out of scope (spec §1): they are
modelled as an oracle structure whose fields are the exact library entry
points the module calls, constrained only by those entry points' type-level
contracts (SHA-256 fills a 32-byte buffer; `serialize_compact` returns a
`[u8; 64]`; `serialize_vec(…, true)` returns the 33-byte compressed
encoding, per the library's documentation).  Parsed `Signature`,
`SecretKey` and `PublicKey` values are opaque handles, modelled as `Nat`. -/
structure Secp256k1Ctx where
  /-- `Sha256::input` + `Sha256::result` into a `[u8; 32]` buffer
  (lines 117-120, 132-135). -/
  sha256 : List Nat → List Nat
  /-- The buffer filled by `Sha256::result` is 32 bytes. -/
  sha256_len : ∀ m, (sha256 m).length = 32
  /-- `secp256k1::key::SecretKey::from_slice(&ctx, bytes)`. -/
  secret_from_slice : List Nat → Except CurveError Nat
  /-- `ctx.sign(&Message, &SecretKey)`, taking the 32-byte digest and the
  secret-key handle. -/
  ctx_sign : List Nat → Nat → Except CurveError Nat
  /-- `Signature::serialize_compact(&ctx)`, returning a `[u8; 64]`. -/
  serialize_compact : Nat → List Nat
  /-- The compact serialization is 64 bytes long. -/
  serialize_compact_len : ∀ s, (serialize_compact s).length = 64
  /-- Its entries are `u8` values. -/
  serialize_compact_bytes : ∀ s, ∀ b ∈ serialize_compact s, b < 256
  /-- `secp256k1::Signature::from_compact(&ctx, bytes)`. -/
  sig_from_compact : List Nat → Except CurveError Nat
  /-- `secp256k1::key::PublicKey::from_slice(&ctx, bytes)`. -/
  pub_from_slice : List Nat → Except CurveError Nat
  /-- `ctx.verify(&Message, &Signature, &PublicKey)`: `Ok(())` or a curve
  error, among which `IncorrectSignature` means "structurally valid but does
  not match". -/
  ctx_verify : List Nat → Nat → Nat → Except CurveError Unit
  /-- `secp256k1::key::PublicKey::from_secret_key(&ctx, &sk)`. -/
  pub_from_secret : Nat → Except CurveError Nat
  /-- `PublicKey::serialize_vec(&ctx, true)`: compressed point encoding. -/
  serialize_vec_compressed : Nat → List Nat
  /-- The compressed encoding is 33 bytes long. -/
  serialize_vec_len : ∀ p, (serialize_vec_compressed p).length = 33
  /-- Its entries are `u8` values. -/
  serialize_vec_bytes : ∀ p, ∀ b ∈ serialize_vec_compressed p, b < 256

/-- `secp256k1::Message::from_slice`: fixed contract of the library — `Ok`
exactly on 32-byte input, `Err(InvalidMessage)` otherwise. -/
def message_from_slice (b : List Nat) : Except CurveError (List Nat) :=
  if b.length = 32 then .ok b else .error .InvalidMessage

/-! ## Algorithm operations (lines 111-159).

Rust evaluates nested `?` operators left to right inside an argument list,
so each operation below propagates failures in exactly the source's textual
order. -/

/-- `Secp256k1Algorithm::sign` (lines 116-129): SHA-256 the message,
validate the key bytes as a scalar, sign the digest, serialize compactly and
hex-encode (the inline `format!("{:02x}", b)…join` is literally
`bytes_to_hex_str`).  Every library failure is wrapped by
`From<secp256k1::Error>`, i.e. `Error.SigningError`. -/
def Secp256k1Algorithm.sign (ctx : Secp256k1Ctx) (message : List Nat)
    (key : Secp256k1PrivateKey) : Except Error (List Char) :=
  let hash := ctx.sha256 message
  match ctx.secret_from_slice key.as_slice with
  | .error e => .error (.SigningError e)
  | .ok sk =>
    match message_from_slice hash with
    | .error e => .error (.SigningError e)
    | .ok digest =>
      match ctx.ctx_sign digest sk with
      | .error e => .error (.SigningError e)
      | .ok sig => .ok (bytes_to_hex_str (ctx.serialize_compact sig))

/-- `Secp256k1Algorithm::verify` (lines 131-146): SHA-256 the message, build
the `Message`, hex-decode the signature string (a `ParseError` from
`hex_str_to_bytes` propagates unchanged through `?`; `none` is its panic on
odd-length all-hex input), parse the compact signature and the public key
(curve failures become `SigningError`), then ask the context to verify:
`Ok(()) ↦ Ok(true)`, `Err(IncorrectSignature) ↦ Ok(false)`, any other error
`↦ Err(SigningError)`. -/
def Secp256k1Algorithm.verify (ctx : Secp256k1Ctx) (signature : List Char)
    (message : List Nat) (key : Secp256k1PublicKey) :
    Option (Except Error Bool) :=
  let hash := ctx.sha256 message
  match message_from_slice hash with
  | .error e => some (.error (.SigningError e))
  | .ok digest =>
    match hex_str_to_bytes signature with
    | none => none
    | some (.error e) => some (.error e)
    | some (.ok sig_bytes) =>
      match ctx.sig_from_compact sig_bytes with
      | .error e => some (.error (.SigningError e))
      | .ok sig =>
        match ctx.pub_from_slice key.as_slice with
        | .error e => some (.error (.SigningError e))
        | .ok pk =>
          match ctx.ctx_verify digest sig pk with
          | .ok _ => some (.ok true)
          | .error .IncorrectSignature => some (.ok false)
          | .error e => some (.error (.SigningError e))

/-- `Secp256k1Algorithm::get_public_key` (lines 148-158): validate the
scalar, derive the point, serialize it compressed, hex-encode, and re-parse
through `Secp256k1PublicKey::from_hex`; the final `match` forwards that
result unchanged.  The outer `Option` carries `from_hex`'s panic
possibility (unreachable here, since the encoder emits only hex digits). -/
def Secp256k1Algorithm.get_public_key (ctx : Secp256k1Ctx)
    (private_key : Secp256k1PrivateKey) :
    Option (Except Error Secp256k1PublicKey) :=
  match ctx.secret_from_slice private_key.as_slice with
  | .error e => some (.error (.SigningError e))
  | .ok sk =>
    match ctx.pub_from_secret sk with
    | .error e => some (.error (.SigningError e))
    | .ok p =>
      Secp256k1PublicKey.from_hex
        (bytes_to_hex_str (ctx.serialize_vec_compressed p))

/-! ## Lemmas about the hex codec -/

theorem char_to_digit16_lt {c : Char} (h : char_is_digit16 c = true) :
    char_to_digit16 c < 16 := by
  simp only [char_is_digit16, Bool.or_eq_true, Bool.and_eq_true,
    decide_eq_true_eq] at h
  simp only [char_to_digit16]
  split
  · next h1 => simp only [Bool.and_eq_true, decide_eq_true_eq] at h1; omega
  · split
    · next h2 => simp only [Bool.and_eq_true, decide_eq_true_eq] at h2; omega
    · next h1 h2 =>
      simp only [Bool.and_eq_true, decide_eq_true_eq, not_and, not_le] at h1 h2
      omega

theorem lower_is_digit16 {c : Char} (h : isLowerHexDigit c = true) :
    char_is_digit16 c = true := by
  simp only [isLowerHexDigit, Bool.or_eq_true, Bool.and_eq_true,
    decide_eq_true_eq] at h
  simp only [char_is_digit16, Bool.or_eq_true, Bool.and_eq_true,
    decide_eq_true_eq]
  omega

theorem firstBadIndex_none {s : List Char}
    (h : ∀ c ∈ s, char_is_digit16 c = true) (i : Nat) :
    firstBadIndex s i = none := by
  induction s generalizing i with
  | nil => rfl
  | cons c cs ih =>
    have hc := h c (by simp)
    simp [firstBadIndex, hc]
    exact ih (fun a ha => h a (by simp [ha])) (i + 1)

theorem firstBadIndex_first {pre : List Char} {c : Char} (post : List Char)
    (hpre : ∀ a ∈ pre, char_is_digit16 a = true)
    (hc : char_is_digit16 c = false) (i : Nat) :
    firstBadIndex (pre ++ c :: post) i = some (i + pre.length) := by
  induction pre generalizing i with
  | nil => simp [firstBadIndex, hc]
  | cons a rest ih =>
    have ha := hpre a (by simp)
    show firstBadIndex (a :: (rest ++ c :: post)) i = _
    rw [show firstBadIndex (a :: (rest ++ c :: post)) i =
      if char_is_digit16 a then firstBadIndex (rest ++ c :: post) (i + 1)
      else some i from rfl]
    rw [ha, if_pos rfl, ih (fun x hx => hpre x (by simp [hx])) (i + 1)]
    simp only [Option.some.injEq, List.length_cons]
    omega

theorem decodePairs_odd (s : List Char) :
    s.length % 2 = 1 → decodePairs s = none :=
  match s with
  | [] => by intro h; simp at h
  | [_] => fun _ => rfl
  | _ :: _ :: rest => by
    intro h
    have h2 : rest.length % 2 = 1 := by
      simp only [List.length_cons] at h; omega
    simp [decodePairs, decodePairs_odd rest h2]

theorem decodePairs_even (s : List Char) :
    s.length % 2 = 0 → ∃ bs, decodePairs s = some bs :=
  match s with
  | [] => fun _ => ⟨[], rfl⟩
  | [_] => by intro h; simp at h
  | a :: b :: rest => by
    intro h
    have h2 : rest.length % 2 = 0 := by
      simp only [List.length_cons] at h; omega
    obtain ⟨bs, hbs⟩ := decodePairs_even rest h2
    refine ⟨(char_to_digit16 a * 16 + char_to_digit16 b) :: bs, ?_⟩
    show (decodePairs rest).map _ = _
    rw [hbs]
    rfl

/-- On the reachable path (all characters are hex digits) every decoded byte
fits in a `u8`, so the source's `as u8` cast truncates nothing. -/
theorem decodePairs_lt256 (s : List Char) :
    ∀ bs, (∀ c ∈ s, char_is_digit16 c = true) → decodePairs s = some bs →
      ∀ b ∈ bs, b < 256 :=
  match s with
  | [] => by
    intro bs _ h x hx
    rw [show decodePairs [] = some [] from rfl] at h
    injection h with h
    subst h
    simp at hx
  | [c] => by
    intro bs _ h
    rw [show decodePairs [c] = none from rfl] at h
    exact Option.noConfusion h
  | a :: b :: rest => by
    intro bs hhex h
    show ∀ x ∈ bs, x < 256
    rw [show decodePairs (a :: b :: rest) = (decodePairs rest).map
      (fun t => (char_to_digit16 a * 16 + char_to_digit16 b) :: t) from rfl]
      at h
    cases ht : decodePairs rest with
    | none => rw [ht] at h; exact Option.noConfusion h
    | some t =>
      rw [ht] at h
      injection h with h
      subst h
      intro x hx
      rcases List.mem_cons.mp hx with hx | hx
      · have ha := char_to_digit16_lt (hhex a (by simp))
        have hb := char_to_digit16_lt (hhex b (by simp))
        omega
      · exact decodePairs_lt256 rest t
          (fun c hc => hhex c (by simp [hc])) ht x hx

theorem to_hex_char_eq {n : Nat} (h : n < 16) :
    char_to_digit16 (to_hex_char n) = n ∧
    isLowerHexDigit (to_hex_char n) = true := by
  interval_cases n <;> exact ⟨by decide, by decide⟩

theorem to_hex_char_of_digit {a : Char} (h : isLowerHexDigit a = true) :
    to_hex_char (char_to_digit16 a) = a := by
  simp only [isLowerHexDigit, Bool.or_eq_true, Bool.and_eq_true,
    decide_eq_true_eq] at h
  simp only [char_to_digit16]
  split
  · next h1 =>
    simp only [Bool.and_eq_true, decide_eq_true_eq] at h1
    simp only [to_hex_char]
    rw [if_pos (by omega)]
    have he : 48 + (a.toNat - 48) = a.toNat := by omega
    rw [he, Char.ofNat_toNat]
  · split
    · next h1 h2 =>
      simp only [Bool.and_eq_true, decide_eq_true_eq] at h2
      simp only [to_hex_char]
      rw [if_neg (by omega)]
      have he : 87 + (a.toNat - 87) = a.toNat := by omega
      rw [he, Char.ofNat_toNat]
    · next h1 h2 =>
      rw [Bool.and_eq_true, decide_eq_true_eq, decide_eq_true_eq] at h1 h2
      exact absurd h (by simp only [not_or, not_and]; constructor <;> omega)

/-- Every character the encoder emits for `u8` input is a lowercase hex
digit. -/
theorem bytes_to_hex_str_lower {bs : List Nat} (h : ∀ b ∈ bs, b < 256) :
    ∀ c ∈ bytes_to_hex_str bs, isLowerHexDigit c = true := by
  induction bs with
  | nil => simp [bytes_to_hex_str]
  | cons x t ih =>
    have hx := h x (by simp)
    intro c hc
    rw [show bytes_to_hex_str (x :: t) = to_hex_char (x / 16) ::
      to_hex_char (x % 16) :: bytes_to_hex_str t from rfl] at hc
    rcases List.mem_cons.mp hc with rfl | hc
    · exact (to_hex_char_eq (by omega)).2
    rcases List.mem_cons.mp hc with rfl | hc
    · exact (to_hex_char_eq (by omega)).2
    · exact ih (fun b hb => h b (by simp [hb])) c hc

theorem bytes_to_hex_str_length (bs : List Nat) :
    (bytes_to_hex_str bs).length = 2 * bs.length := by
  induction bs with
  | nil => rfl
  | cons x t ih => simp [bytes_to_hex_str] at ih ⊢; omega

/-- Decoding the pairs of an encoded `u8` list recovers the list. -/
theorem decodePairs_encode {bs : List Nat} (h : ∀ b ∈ bs, b < 256) :
    decodePairs (bytes_to_hex_str bs) = some bs := by
  induction bs with
  | nil => rfl
  | cons x t ih =>
    have hx := h x (by simp)
    have hdiv : x / 16 < 16 := by omega
    have hmod : x % 16 < 16 := by omega
    show (decodePairs (bytes_to_hex_str t)).map
      (fun t => (char_to_digit16 (to_hex_char (x / 16)) * 16 +
        char_to_digit16 (to_hex_char (x % 16))) :: t) = _
    rw [ih (fun b hb => h b (by simp [hb])), (to_hex_char_eq hdiv).1,
      (to_hex_char_eq hmod).1]
    have he : x / 16 * 16 + x % 16 = x := by omega
    rw [he]
    rfl

/-- Round trip byte → hex → byte: `hex_str_to_bytes (bytes_to_hex_str bs)`
returns `bs` for `u8` input. -/
theorem decode_encode {bs : List Nat} (h : ∀ b ∈ bs, b < 256) :
    hex_str_to_bytes (bytes_to_hex_str bs) = some (.ok bs) := by
  have hall : ∀ c ∈ bytes_to_hex_str bs, char_is_digit16 c = true :=
    fun c hc => lower_is_digit16 (bytes_to_hex_str_lower h c hc)
  simp [hex_str_to_bytes, firstBadIndex_none hall 0, decodePairs_encode h]

/-- Round trip hex → byte → hex on lowercase even-length input. -/
theorem encode_decode (s : List Char) :
    (∀ c ∈ s, isLowerHexDigit c = true) → ∀ bs, decodePairs s = some bs →
      bytes_to_hex_str bs = s :=
  match s with
  | [] => by
    intro _ bs h
    rw [show decodePairs [] = some [] from rfl] at h
    injection h with h
    subst h
    rfl
  | [c] => by
    intro _ bs h
    rw [show decodePairs [c] = none from rfl] at h
    exact Option.noConfusion h
  | a :: b :: rest => by
    intro hlow bs h
    rw [show decodePairs (a :: b :: rest) = (decodePairs rest).map
      (fun t => (char_to_digit16 a * 16 + char_to_digit16 b) :: t) from rfl]
      at h
    obtain ⟨t, ht, rfl⟩ := Option.map_eq_some'.mp h
    have ha := hlow a (by simp)
    have hb := hlow b (by simp)
    have hva := char_to_digit16_lt (lower_is_digit16 ha)
    have hvb := char_to_digit16_lt (lower_is_digit16 hb)
    show to_hex_char ((char_to_digit16 a * 16 + char_to_digit16 b) / 16) ::
        to_hex_char ((char_to_digit16 a * 16 + char_to_digit16 b) % 16) ::
        bytes_to_hex_str t = _
    have hdiv : (char_to_digit16 a * 16 + char_to_digit16 b) / 16 =
        char_to_digit16 a := by omega
    have hmod : (char_to_digit16 a * 16 + char_to_digit16 b) % 16 =
        char_to_digit16 b := by omega
    rw [hdiv, hmod, to_hex_char_of_digit ha, to_hex_char_of_digit hb,
      encode_decode rest (fun c hc => hlow c (by simp [hc])) t ht]

/-! ## Lemmas about `from_wif` -/

theorem vec_remove_last {l : List Nat} {k : Nat} (h : l.length = k + 1) :
    vec_remove l k = some (l.take k) := by
  have hd : l.drop (k + 1) = [] := List.drop_eq_nil_of_le (by omega)
  simp [vec_remove, h, hd]

/-- With at least five decoded bytes, the five `remove` calls succeed and
leave exactly the middle `len - 5` bytes. -/
theorem from_wif_of_long {s : List Char} {b : List Nat}
    (hb : from_base58 s = .ok b) (h5 : 5 ≤ b.length) :
    Secp256k1PrivateKey.from_wif s =
      some (.ok ⟨(b.drop 1).take (b.length - 5)⟩) := by
  simp only [Secp256k1PrivateKey.from_wif, hb]
  have h1 : vec_remove b (b.length - 1) = some (b.take (b.length - 1)) :=
    vec_remove_last (by omega)
  have l1 : (b.take (b.length - 1)).length = b.length - 1 := by
    rw [List.length_take]; omega
  have h2 : vec_remove (b.take (b.length - 1)) (b.length - 2) =
      some ((b.take (b.length - 1)).take (b.length - 2)) :=
    vec_remove_last (by omega)
  rw [List.take_take, show min (b.length - 2) (b.length - 1) = b.length - 2
    by omega] at h2
  have l2 : (b.take (b.length - 2)).length = b.length - 2 := by
    rw [List.length_take]; omega
  have h3 : vec_remove (b.take (b.length - 2)) (b.length - 3) =
      some ((b.take (b.length - 2)).take (b.length - 3)) :=
    vec_remove_last (by omega)
  rw [List.take_take, show min (b.length - 3) (b.length - 2) = b.length - 3
    by omega] at h3
  have l3 : (b.take (b.length - 3)).length = b.length - 3 := by
    rw [List.length_take]; omega
  have h4 : vec_remove (b.take (b.length - 3)) (b.length - 4) =
      some ((b.take (b.length - 3)).take (b.length - 4)) :=
    vec_remove_last (by omega)
  rw [List.take_take, show min (b.length - 4) (b.length - 3) = b.length - 4
    by omega] at h4
  have l4 : (b.take (b.length - 4)).length = b.length - 4 := by
    rw [List.length_take]; omega
  have h5' : vec_remove (b.take (b.length - 4)) 0 =
      some ((b.take (b.length - 4)).drop 1) := by
    simp only [vec_remove, l4]
    rw [if_pos (by omega)]
    simp
  simp only [h1, h2, h3, h4, h5']
  rw [List.drop_take, show b.length - 4 - 1 = b.length - 5 by omega]

/-- With fewer than five decoded bytes one of the `remove` calls is out of
bounds: the Rust code panics. -/
theorem from_wif_of_short {s : List Char} {b : List Nat}
    (hb : from_base58 s = .ok b) (h5 : b.length < 5) :
    Secp256k1PrivateKey.from_wif s = none := by
  match b, h5 with
  | [], _ => simp [Secp256k1PrivateKey.from_wif, hb, vec_remove]
  | [x1], _ => simp [Secp256k1PrivateKey.from_wif, hb, vec_remove]
  | [x1, x2], _ => simp [Secp256k1PrivateKey.from_wif, hb, vec_remove]
  | [x1, x2, x3], _ => simp [Secp256k1PrivateKey.from_wif, hb, vec_remove]
  | [x1, x2, x3, x4], _ => simp [Secp256k1PrivateKey.from_wif, hb, vec_remove]

/-! ## Further inversion lemmas -/

theorem firstBadIndex_none_inv {s : List Char} {i : Nat}
    (h : firstBadIndex s i = none) : ∀ c ∈ s, char_is_digit16 c = true := by
  induction s generalizing i with
  | nil => simp
  | cons c cs ih =>
    intro a ha
    by_cases hc : char_is_digit16 c = true
    · rw [show firstBadIndex (c :: cs) i =
        if char_is_digit16 c then firstBadIndex cs (i + 1) else some i
        from rfl, hc, if_pos rfl] at h
      rcases List.mem_cons.mp ha with rfl | ha
      · exact hc
      · exact ih h a ha
    · rw [show firstBadIndex (c :: cs) i =
        if char_is_digit16 c then firstBadIndex cs (i + 1) else some i
        from rfl, if_neg (by simpa using hc)] at h
      exact Option.noConfusion h

theorem hex_ok_inv {s : List Char} {bs : List Nat}
    (h : hex_str_to_bytes s = some (.ok bs)) :
    firstBadIndex s 0 = none ∧ decodePairs s = some bs := by
  unfold hex_str_to_bytes at h
  cases hf : firstBadIndex s 0 with
  | some i => rw [hf] at h; injection h with h; exact Except.noConfusion h
  | none =>
    rw [hf] at h
    cases hd : decodePairs s with
    | none => rw [hd] at h; exact Option.noConfusion h
    | some t =>
      rw [hd] at h
      injection h with h
      injection h with h
      exact ⟨rfl, by rw [h]⟩

theorem hex_error_is_parse {s : List Char} {e : Error}
    (h : hex_str_to_bytes s = some (.error e)) : ∃ m, e = .ParseError m := by
  unfold hex_str_to_bytes at h
  cases hf : firstBadIndex s 0 with
  | some i =>
    rw [hf] at h
    injection h with h
    injection h with h
    exact ⟨_, h.symm⟩
  | none =>
    rw [hf] at h
    cases hd : decodePairs s with
    | none => rw [hd] at h; exact Option.noConfusion h
    | some t =>
      rw [hd] at h
      injection h with h
      exact Except.noConfusion h

theorem decodePairs_length (s : List Char) :
    ∀ bs, decodePairs s = some bs → bs.length = s.length / 2 :=
  match s with
  | [] => by
    intro bs h
    rw [show decodePairs [] = some [] from rfl] at h
    injection h with h
    subst h
    rfl
  | [c] => by
    intro bs h
    rw [show decodePairs [c] = none from rfl] at h
    exact Option.noConfusion h
  | a :: b :: rest => by
    intro bs h
    rw [show decodePairs (a :: b :: rest) = (decodePairs rest).map
      (fun t => (char_to_digit16 a * 16 + char_to_digit16 b) :: t) from rfl]
      at h
    obtain ⟨t, ht, rfl⟩ := Option.map_eq_some'.mp h
    have := decodePairs_length rest t ht
    simp only [List.length_cons, this]
    omega

theorem priv_from_hex_ok_inv {s : List Char} {k : Secp256k1PrivateKey}
    (h : Secp256k1PrivateKey.from_hex s = some (.ok k)) :
    hex_str_to_bytes s = some (.ok k.private_bytes) := by
  unfold Secp256k1PrivateKey.from_hex at h
  cases hh : hex_str_to_bytes s with
  | none => rw [hh] at h; exact Option.noConfusion h
  | some r =>
    rw [hh] at h
    injection h with h
    cases r with
    | error e => exact Except.noConfusion h
    | ok bs => injection h with h; subst h; rfl

theorem pub_from_hex_ok_inv {s : List Char} {k : Secp256k1PublicKey}
    (h : Secp256k1PublicKey.from_hex s = some (.ok k)) :
    hex_str_to_bytes s = some (.ok k.private_bytes) := by
  unfold Secp256k1PublicKey.from_hex at h
  cases hh : hex_str_to_bytes s with
  | none => rw [hh] at h; exact Option.noConfusion h
  | some r =>
    rw [hh] at h
    injection h with h
    cases r with
    | error e => exact Except.noConfusion h
    | ok bs => injection h with h; subst h; rfl

/-- Bytes produced by a successful `hex_str_to_bytes` are `u8` values. -/
theorem hex_ok_bytes_lt256 {s : List Char} {bs : List Nat}
    (h : hex_str_to_bytes s = some (.ok bs)) : ∀ b ∈ bs, b < 256 := by
  obtain ⟨hf, hd⟩ := hex_ok_inv h
  exact decodePairs_lt256 s bs (firstBadIndex_none_inv hf) hd

theorem priv_from_hex_encode {bs : List Nat} (h : ∀ b ∈ bs, b < 256) :
    Secp256k1PrivateKey.from_hex (bytes_to_hex_str bs) =
      some (.ok ⟨bs⟩) := by
  unfold Secp256k1PrivateKey.from_hex
  rw [decode_encode h]
  rfl

theorem pub_from_hex_encode {bs : List Nat} (h : ∀ b ∈ bs, b < 256) :
    Secp256k1PublicKey.from_hex (bytes_to_hex_str bs) =
      some (.ok ⟨bs⟩) := by
  unfold Secp256k1PublicKey.from_hex
  rw [decode_encode h]
  rfl

/-! ## Claim theorems: hex codec and key construction -/

/-- C4, counterexample: the claim says hex decoding of the odd-length
all-hex-digit string `"abc"` does not fail, silently ignoring the trailing
nibble (so it would return `Ok [0xab]`).  In fact every character of
`"abc"` is a hex digit and yet the decode panics (`chunk[1]` on the final
length-1 chunk), returning nothing at all. -/
theorem C4_counterexample :
    char_is_digit16 'a' = true ∧ char_is_digit16 'b' = true ∧
    char_is_digit16 'c' = true ∧ hex_str_to_bytes ['a', 'b', 'c'] = none := by
  refine ⟨by decide, by decide, by decide, ?_⟩
  rfl

/-- C4, amended: for every odd-length string of hex digits `hex_str_to_bytes`
panics (index out of bounds on the final singleton chunk) instead of
returning: it neither truncates the trailing nibble nor reports an error. -/
theorem C4_odd_length_panics (s : List Char)
    (hodd : s.length % 2 = 1) (hhex : ∀ c ∈ s, char_is_digit16 c = true) :
    hex_str_to_bytes s = none := by
  unfold hex_str_to_bytes
  rw [firstBadIndex_none hhex 0, decodePairs_odd s hodd]
  rfl

/-- C4 witness: the amended statement at the concrete input `"abc"`. -/
theorem C4_odd_length_panics_witness :
    hex_str_to_bytes ['a', 'b', 'c'] = none :=
  C4_odd_length_panics ['a', 'b', 'c'] (by decide) (by decide)

/-- C5: on any string whose first non-hex character sits at position
`pre.length` (all earlier characters are hex digits), `hex_str_to_bytes` —
and therefore `Secp256k1PrivateKey::from_hex` and
`Secp256k1PublicKey::from_hex` — fails with a `ParseError` whose message
names exactly that index.  In particular, replacing one character of an
all-hex key string with a non-hex character reports the altered index. -/
theorem C5_parse_error_names_position (pre : List Char) (c : Char)
    (post : List Char) (hpre : ∀ a ∈ pre, char_is_digit16 a = true)
    (hc : char_is_digit16 c = false) :
    hex_str_to_bytes (pre ++ c :: post) = some (.error (.ParseError
      ("invalid character position " ++ toString pre.length))) ∧
    Secp256k1PrivateKey.from_hex (pre ++ c :: post) = some (.error
      (.ParseError ("invalid character position " ++ toString pre.length))) ∧
    Secp256k1PublicKey.from_hex (pre ++ c :: post) = some (.error
      (.ParseError ("invalid character position " ++ toString pre.length))) := by
  have hmain : hex_str_to_bytes (pre ++ c :: post) = some (.error (.ParseError
      ("invalid character position " ++ toString pre.length))) := by
    unfold hex_str_to_bytes
    rw [firstBadIndex_first post hpre hc 0]
    simp
  refine ⟨hmain, ?_, ?_⟩
  · unfold Secp256k1PrivateKey.from_hex
    rw [hmain]
    rfl
  · unfold Secp256k1PublicKey.from_hex
    rw [hmain]
    rfl

/-- C5 witness: the valid hex key prefix `"2f"` followed by the non-hex
character `z` at index 2 (then `"40"`): the reported position is 2, for all
three entry points. -/
theorem C5_parse_error_names_position_witness :
    hex_str_to_bytes ['2', 'f', 'z', '4', '0'] =
      some (.error (.ParseError "invalid character position 2")) ∧
    Secp256k1PrivateKey.from_hex ['2', 'f', 'z', '4', '0'] =
      some (.error (.ParseError "invalid character position 2")) ∧
    Secp256k1PublicKey.from_hex ['2', 'f', 'z', '4', '0'] =
      some (.error (.ParseError "invalid character position 2")) :=
  C5_parse_error_names_position ['2', 'f'] 'z' ['4', '0']
    (by decide) (by decide)

/-- C6, counterexample: the claim says every constructed `PrivateKey` has
exactly 32 bytes.  `from_hex` performs no length check: the two-character
string `"ab"` yields a happily constructed key of one single byte. -/
theorem C6_counterexample :
    Secp256k1PrivateKey.from_hex ['a', 'b'] = some (.ok ⟨[171]⟩) ∧
    (Secp256k1PrivateKey.mk [171]).private_bytes.length ≠ 32 := by
  exact ⟨rfl, by decide⟩

/-- C6, amended: construction checks neither length nor scalar validity: a
constructed key's byte length is half the hex string's length (so exactly
32 bytes only for the 64-character strings the rest of the system feeds
it), and even the all-zero string — an invalid scalar — is accepted, scalar
validity being left to first use. -/
theorem C6_no_construction_checks :
    (∀ s k, Secp256k1PrivateKey.from_hex s = some (.ok k) →
      k.private_bytes.length = s.length / 2) ∧
    (∀ s k, s.length = 64 → Secp256k1PrivateKey.from_hex s = some (.ok k) →
      k.private_bytes.length = 32) ∧
    Secp256k1PrivateKey.from_hex (List.replicate 64 '0') =
      some (.ok ⟨List.replicate 32 0⟩) := by
  have hlen : ∀ s k, Secp256k1PrivateKey.from_hex s = some (.ok k) →
      k.private_bytes.length = s.length / 2 := by
    intro s k h
    obtain ⟨-, hd⟩ := hex_ok_inv (priv_from_hex_ok_inv h)
    exact decodePairs_length s _ hd
  refine ⟨hlen, fun s k h64 h => by rw [hlen s k h, h64], ?_⟩
  have : bytes_to_hex_str (List.replicate 32 0) = List.replicate 64 '0' := by
    decide
  rw [← this]
  exact priv_from_hex_encode (by decide)

/-- C6 witness: the amended statement at concrete inputs: `"ab"` gives a
1-byte key, and any 64-character accepted string gives a 32-byte key. -/
theorem C6_no_construction_checks_witness :
    (Secp256k1PrivateKey.mk [171]).private_bytes.length =
      (['a', 'b'] : List Char).length / 2 ∧
    (Secp256k1PrivateKey.mk (List.replicate 32 0)).private_bytes.length = 32 :=
  ⟨C6_no_construction_checks.1 ['a', 'b'] ⟨[171]⟩ rfl,
   C6_no_construction_checks.2.1 (List.replicate 64 '0') ⟨List.replicate 32 0⟩
     (by decide) C6_no_construction_checks.2.2⟩

/-- C7: round trips of the hex codec.  Decoding the encoding of any 32-byte
sequence yields the bytes again; encoding the decoding of any well-formed
(64 lowercase hex characters, per the spec's wire format) string yields the
string again. -/
theorem C7_hex_roundtrip :
    (∀ bs : List Nat, bs.length = 32 → (∀ b ∈ bs, b < 256) →
      hex_str_to_bytes (bytes_to_hex_str bs) = some (.ok bs)) ∧
    (∀ s : List Char, s.length = 64 → (∀ c ∈ s, isLowerHexDigit c = true) →
      ∃ bs, hex_str_to_bytes s = some (.ok bs) ∧ bytes_to_hex_str bs = s) := by
  constructor
  · intro bs _ h
    exact decode_encode h
  · intro s hlen hlow
    have hhex : ∀ c ∈ s, char_is_digit16 c = true :=
      fun c hc => lower_is_digit16 (hlow c hc)
    obtain ⟨bs, hbs⟩ := decodePairs_even s (by omega)
    refine ⟨bs, ?_, encode_decode s hlow bs hbs⟩
    unfold hex_str_to_bytes
    rw [firstBadIndex_none hhex 0, hbs]
    rfl

/-- C7 witness: both round trips at concrete inputs (32 zero bytes; the
64-character all-`'0'` string). -/
theorem C7_hex_roundtrip_witness :
    hex_str_to_bytes (bytes_to_hex_str (List.replicate 32 0)) =
      some (.ok (List.replicate 32 0)) ∧
    ∃ bs, hex_str_to_bytes (List.replicate 64 '0') = some (.ok bs) ∧
      bytes_to_hex_str bs = List.replicate 64 '0' :=
  ⟨C7_hex_roundtrip.1 (List.replicate 32 0) (by decide) (by decide),
   C7_hex_roundtrip.2 (List.replicate 64 '0') (by decide) (by decide)⟩

/-- C8: idempotence of key parsing.  Whenever a private (resp. public) key
is successfully constructed from a hex string, re-encoding it with `as_hex`
and re-parsing yields a key equal to the original — in particular with the
same algorithm name and the same hex. -/
theorem C8_parse_idempotent :
    (∀ s k, Secp256k1PrivateKey.from_hex s = some (.ok k) →
      Secp256k1PrivateKey.from_hex k.as_hex = some (.ok k) ∧
      k.get_algorithm_name = "secp256k1") ∧
    (∀ s k, Secp256k1PublicKey.from_hex s = some (.ok k) →
      Secp256k1PublicKey.from_hex k.as_hex = some (.ok k) ∧
      k.get_algorithm_name = "secp256k1") := by
  constructor
  · intro s k h
    have hlt := hex_ok_bytes_lt256 (priv_from_hex_ok_inv h)
    exact ⟨priv_from_hex_encode hlt, rfl⟩
  · intro s k h
    have hlt := hex_ok_bytes_lt256 (pub_from_hex_ok_inv h)
    exact ⟨pub_from_hex_encode hlt, rfl⟩

/-- C8 witness: parse the two-byte key `"2f1e"`, re-encode, re-parse; the
same for a public key. -/
theorem C8_parse_idempotent_witness :
    (Secp256k1PrivateKey.from_hex (Secp256k1PrivateKey.mk [47, 30]).as_hex =
      some (.ok ⟨[47, 30]⟩) ∧
     (Secp256k1PrivateKey.mk [47, 30]).get_algorithm_name = "secp256k1") ∧
    (Secp256k1PublicKey.from_hex (Secp256k1PublicKey.mk [47, 30]).as_hex =
      some (.ok ⟨[47, 30]⟩) ∧
     (Secp256k1PublicKey.mk [47, 30]).get_algorithm_name = "secp256k1") :=
  ⟨C8_parse_idempotent.1 ['2', 'f', '1', 'e'] ⟨[47, 30]⟩ rfl,
   C8_parse_idempotent.2 ['2', 'f', '1', 'e'] ⟨[47, 30]⟩ rfl⟩

/-! ## Claim theorems: WIF decoding -/

/-- C3, counterexample: the claim says every string that base58-decodes
successfully is accepted.  `"1"` base58-decodes successfully (to the single
byte `[0]`), yet `from_wif` panics on it (the positional `remove` calls go
out of bounds) and accepts nothing. -/
theorem C3_counterexample :
    from_base58 ['1'] = .ok [0] ∧
    Secp256k1PrivateKey.from_wif ['1'] = none := by
  constructor
  · rfl
  · exact from_wif_of_short (by rfl) (by decide)

/-- C3, amended: `from_wif` base58-decodes the string (`ParseError "Base58
decoding failed"` when that fails) and strips exactly the first byte and
the last four bytes, returning the middle bytes without ever verifying the
checksum — for every string whose decoded form has at least 5 bytes; a
string decoding to fewer than 5 bytes is not accepted but panics. -/
theorem C3_wif_strips_positionally :
    (∀ s e, from_base58 s = .error e →
      Secp256k1PrivateKey.from_wif s =
        some (.error (.ParseError "Base58 decoding failed"))) ∧
    (∀ s b, from_base58 s = .ok b → 5 ≤ b.length →
      Secp256k1PrivateKey.from_wif s =
        some (.ok ⟨(b.drop 1).take (b.length - 5)⟩)) := by
  constructor
  · intro s e he
    unfold Secp256k1PrivateKey.from_wif
    rw [he]
  · intro s b hb h5
    exact from_wif_of_long hb h5

/-- C3 witness: the amended statement at concrete inputs: `"0"` is not
base58 (→ `ParseError`), and `"111111"` decodes to six zero bytes, of which
the middle one survives the positional stripping. -/
theorem C3_wif_strips_positionally_witness :
    Secp256k1PrivateKey.from_wif ['0'] =
      some (.error (.ParseError "Base58 decoding failed")) ∧
    Secp256k1PrivateKey.from_wif ['1', '1', '1', '1', '1', '1'] =
      some (.ok ⟨[0]⟩) := by
  constructor
  · exact C3_wif_strips_positionally.1 ['0'] (.InvalidBase58Byte '0' 0) rfl
  · rw [C3_wif_strips_positionally.2 ['1', '1', '1', '1', '1', '1']
      (List.replicate 6 0) rfl (by decide)]
    rfl

/-- C10: when the base58 decoding of the input yields fewer than 5 bytes,
`from_wif` does not return an `Error`: the positional `remove(len-1)` …
`remove(0)` calls go out of bounds (in Rust: `usize` underflow or an
out-of-bounds `Vec::remove`, a panic either way); the function returns
normally only when the decoded sequence has at least 5 bytes. -/
theorem C10_short_wif_panics :
    (∀ s b, from_base58 s = .ok b → b.length < 5 →
      Secp256k1PrivateKey.from_wif s = none) ∧
    (∀ s b, from_base58 s = .ok b →
      Secp256k1PrivateKey.from_wif s ≠ none → 5 ≤ b.length) := by
  refine ⟨fun s b hb h5 => from_wif_of_short hb h5, ?_⟩
  intro s b hb hne
  by_contra h
  exact hne (from_wif_of_short hb (by omega))

/-- C10 witness: `"1"` decodes to one byte and `from_wif` panics on it;
`"111111"` decodes to six bytes and `from_wif` returns, so the second
conjunct yields `5 ≤ 6`. -/
theorem C10_short_wif_panics_witness :
    Secp256k1PrivateKey.from_wif ['1'] = none ∧
    5 ≤ (List.replicate 6 (0 : Nat)).length := by
  constructor
  · exact C10_short_wif_panics.1 ['1'] [0] rfl (by decide)
  · refine C10_short_wif_panics.2 ['1', '1', '1', '1', '1', '1']
      (List.replicate 6 0) rfl ?_
    intro h
    rw [show Secp256k1PrivateKey.from_wif ['1', '1', '1', '1', '1', '1'] =
      some (.ok ⟨[0]⟩) from rfl] at h
    exact Option.noConfusion h

/-! ## Claim theorems: sign / verify / derive -/

theorem message_from_slice_sha (ctx : Secp256k1Ctx) (m : List Nat) :
    message_from_slice (ctx.sha256 m) = .ok (ctx.sha256 m) := by
  unfold message_from_slice
  rw [if_pos (ctx.sha256_len m)]

/-- C2: `sign` submits the 256-bit digest of the message and the key's
scalar to the curve signing routine and returns the hex encoding of the
64-byte compact serialization — 128 lowercase hex characters.  It fails
with `SigningError` when the key bytes are not a valid scalar or the curve
signing step fails, the curve library's original error being carried inside
the `SigningError` unchanged. -/
theorem C2_sign_spec :
    (∀ (ctx : Secp256k1Ctx) (message : List Nat) (key : Secp256k1PrivateKey)
      (e : CurveError), ctx.secret_from_slice key.as_slice = .error e →
      Secp256k1Algorithm.sign ctx message key = .error (.SigningError e)) ∧
    (∀ (ctx : Secp256k1Ctx) (message : List Nat) (key : Secp256k1PrivateKey)
      (sk : Nat) (e : CurveError),
      ctx.secret_from_slice key.as_slice = .ok sk →
      ctx.ctx_sign (ctx.sha256 message) sk = .error e →
      Secp256k1Algorithm.sign ctx message key = .error (.SigningError e)) ∧
    (∀ (ctx : Secp256k1Ctx) (message : List Nat) (key : Secp256k1PrivateKey)
      (sk sig : Nat),
      ctx.secret_from_slice key.as_slice = .ok sk →
      ctx.ctx_sign (ctx.sha256 message) sk = .ok sig →
      Secp256k1Algorithm.sign ctx message key =
        .ok (bytes_to_hex_str (ctx.serialize_compact sig)) ∧
      (bytes_to_hex_str (ctx.serialize_compact sig)).length = 128 ∧
      ∀ c ∈ bytes_to_hex_str (ctx.serialize_compact sig),
        isLowerHexDigit c = true) := by
  refine ⟨?_, ?_, ?_⟩
  · intro ctx message key e he
    simp only [Secp256k1Algorithm.sign, he]
  · intro ctx message key sk e hsk he
    simp only [Secp256k1Algorithm.sign, hsk, message_from_slice_sha, he]
  · intro ctx message key sk sig hsk hsig
    refine ⟨by simp only [Secp256k1Algorithm.sign, hsk, message_from_slice_sha,
      hsig], ?_, ?_⟩
    · rw [bytes_to_hex_str_length, ctx.serialize_compact_len]
    · exact bytes_to_hex_str_lower (ctx.serialize_compact_bytes sig)

/-- C1: `verify` returns `Ok(false)` exactly when the whole parsing pipeline
succeeded and the curve library answered `IncorrectSignature`; a hex decode
failure of the signature string propagates as that `ParseError`; a curve
failure parsing the compact signature or the public key, or any curve
verification failure other than `IncorrectSignature`, is a `SigningError` —
never `Ok(false)`. -/
theorem C1_verify_error_taxonomy :
    (∀ (ctx : Secp256k1Ctx) (signature : List Char) (message : List Nat)
      (key : Secp256k1PublicKey),
      Secp256k1Algorithm.verify ctx signature message key =
        some (.ok false) ↔
      ∃ sb sh ph, hex_str_to_bytes signature = some (.ok sb) ∧
        ctx.sig_from_compact sb = .ok sh ∧
        ctx.pub_from_slice key.as_slice = .ok ph ∧
        ctx.ctx_verify (ctx.sha256 message) sh ph =
          .error .IncorrectSignature) ∧
    (∀ (ctx : Secp256k1Ctx) (signature : List Char) (message : List Nat)
      (key : Secp256k1PublicKey) (e : Error),
      hex_str_to_bytes signature = some (.error e) →
      Secp256k1Algorithm.verify ctx signature message key =
        some (.error e) ∧ ∃ m, e = .ParseError m) ∧
    (∀ (ctx : Secp256k1Ctx) (signature : List Char) (message : List Nat)
      (key : Secp256k1PublicKey) (sb : List Nat) (e : CurveError),
      hex_str_to_bytes signature = some (.ok sb) →
      ctx.sig_from_compact sb = .error e →
      Secp256k1Algorithm.verify ctx signature message key =
        some (.error (.SigningError e))) ∧
    (∀ (ctx : Secp256k1Ctx) (signature : List Char) (message : List Nat)
      (key : Secp256k1PublicKey) (sb : List Nat) (sh : Nat) (e : CurveError),
      hex_str_to_bytes signature = some (.ok sb) →
      ctx.sig_from_compact sb = .ok sh →
      ctx.pub_from_slice key.as_slice = .error e →
      Secp256k1Algorithm.verify ctx signature message key =
        some (.error (.SigningError e))) ∧
    (∀ (ctx : Secp256k1Ctx) (signature : List Char) (message : List Nat)
      (key : Secp256k1PublicKey) (sb : List Nat) (sh ph : Nat)
      (e : CurveError),
      hex_str_to_bytes signature = some (.ok sb) →
      ctx.sig_from_compact sb = .ok sh →
      ctx.pub_from_slice key.as_slice = .ok ph →
      ctx.ctx_verify (ctx.sha256 message) sh ph = .error e →
      e ≠ .IncorrectSignature →
      Secp256k1Algorithm.verify ctx signature message key =
        some (.error (.SigningError e))) := by
  refine ⟨?_, ?_, ?_, ?_, ?_⟩
  · intro ctx signature message key
    constructor
    · intro h
      cases hh : hex_str_to_bytes signature with
      | none =>
        rw [show Secp256k1Algorithm.verify ctx signature message key = none
          by simp only [Secp256k1Algorithm.verify, message_from_slice_sha,
            hh]] at h
        exact Option.noConfusion h
      | some r =>
        cases r with
        | error e =>
          rw [show Secp256k1Algorithm.verify ctx signature message key =
            some (.error e) by simp only [Secp256k1Algorithm.verify,
              message_from_slice_sha, hh]] at h
          simp at h
        | ok sb =>
          cases hs : ctx.sig_from_compact sb with
          | error e =>
            rw [show Secp256k1Algorithm.verify ctx signature message key =
              some (.error (.SigningError e)) by
                simp only [Secp256k1Algorithm.verify, message_from_slice_sha,
                  hh, hs]] at h
            simp at h
          | ok sh =>
            cases hp : ctx.pub_from_slice key.as_slice with
            | error e =>
              rw [show Secp256k1Algorithm.verify ctx signature message key =
                some (.error (.SigningError e)) by
                  simp only [Secp256k1Algorithm.verify,
                    message_from_slice_sha, hh, hs, hp]] at h
              simp at h
            | ok ph =>
              cases hv : ctx.ctx_verify (ctx.sha256 message) sh ph with
              | ok u =>
                rw [show Secp256k1Algorithm.verify ctx signature message key =
                  some (.ok true) by
                    simp only [Secp256k1Algorithm.verify,
                      message_from_slice_sha, hh, hs, hp, hv]] at h
                simp at h
              | error e =>
                cases e with
                | IncorrectSignature => exact ⟨sb, sh, ph, rfl, hs, rfl, hv⟩
                | InvalidMessage =>
                  rw [show Secp256k1Algorithm.verify ctx signature message
                    key = some (.error (.SigningError .InvalidMessage)) by
                      simp only [Secp256k1Algorithm.verify,
                        message_from_slice_sha, hh, hs, hp, hv]] at h
                  simp at h
                | InvalidSignature =>
                  rw [show Secp256k1Algorithm.verify ctx signature message
                    key = some (.error (.SigningError .InvalidSignature)) by
                      simp only [Secp256k1Algorithm.verify,
                        message_from_slice_sha, hh, hs, hp, hv]] at h
                  simp at h
                | InvalidPublicKey =>
                  rw [show Secp256k1Algorithm.verify ctx signature message
                    key = some (.error (.SigningError .InvalidPublicKey)) by
                      simp only [Secp256k1Algorithm.verify,
                        message_from_slice_sha, hh, hs, hp, hv]] at h
                  simp at h
                | InvalidSecretKey =>
                  rw [show Secp256k1Algorithm.verify ctx signature message
                    key = some (.error (.SigningError .InvalidSecretKey)) by
                      simp only [Secp256k1Algorithm.verify,
                        message_from_slice_sha, hh, hs, hp, hv]] at h
                  simp at h
    · rintro ⟨sb, sh, ph, hh, hs, hp, hv⟩
      simp only [Secp256k1Algorithm.verify, message_from_slice_sha,
        hh, hs, hp, hv]
  · intro ctx signature message key e hh
    refine ⟨?_, hex_error_is_parse hh⟩
    simp only [Secp256k1Algorithm.verify, message_from_slice_sha, hh]
  · intro ctx signature message key sb e hh hs
    simp only [Secp256k1Algorithm.verify, message_from_slice_sha, hh, hs]
  · intro ctx signature message key sb sh e hh hs hp
    simp only [Secp256k1Algorithm.verify, message_from_slice_sha, hh, hs, hp]
  · intro ctx signature message key sb sh ph e hh hs hp hv hne
    simp only [Secp256k1Algorithm.verify, message_from_slice_sha,
      hh, hs, hp, hv]

/-- C9: `get_public_key` is a pure function of the private key's bytes:
byte-identical keys give identical results on the same context, and a
successful result is the (hex-round-tripped) 33-byte compressed point
encoding. -/
theorem C9_derive_deterministic :
    (∀ (ctx : Secp256k1Ctx) (k1 k2 : Secp256k1PrivateKey),
      k1.private_bytes = k2.private_bytes →
      Secp256k1Algorithm.get_public_key ctx k1 =
        Secp256k1Algorithm.get_public_key ctx k2) ∧
    (∀ (ctx : Secp256k1Ctx) (k : Secp256k1PrivateKey)
      (pk : Secp256k1PublicKey),
      Secp256k1Algorithm.get_public_key ctx k = some (.ok pk) →
      pk.private_bytes.length = 33) := by
  constructor
  · intro ctx k1 k2 h
    unfold Secp256k1Algorithm.get_public_key Secp256k1PrivateKey.as_slice
    rw [h]
  · intro ctx k pk h
    cases hsk : ctx.secret_from_slice k.as_slice with
    | error e =>
      rw [show Secp256k1Algorithm.get_public_key ctx k =
        some (.error (.SigningError e)) by
          simp only [Secp256k1Algorithm.get_public_key, hsk]] at h
      simp at h
    | ok sk =>
      cases hp : ctx.pub_from_secret sk with
      | error e =>
        rw [show Secp256k1Algorithm.get_public_key ctx k =
          some (.error (.SigningError e)) by
            simp only [Secp256k1Algorithm.get_public_key, hsk, hp]] at h
        simp at h
      | ok p =>
        rw [show Secp256k1Algorithm.get_public_key ctx k =
          some (.ok ⟨ctx.serialize_vec_compressed p⟩) by
            simp only [Secp256k1Algorithm.get_public_key, hsk, hp,
              pub_from_hex_encode (ctx.serialize_vec_bytes p)]] at h
        simp only [Option.some.injEq, Except.ok.injEq] at h
        rw [← h, ← ctx.serialize_vec_len p]

/-! Two concrete curve oracles used by the witnesses below.  `ctxA` answers
`IncorrectSignature` on verification and fails scalar/point parsing on empty
input; `ctxB` answers `InvalidSignature` on verification and fails the
signing step. -/

def ctxA : Secp256k1Ctx where
  sha256 := fun _ => List.replicate 32 0
  sha256_len := fun _ => by simp
  secret_from_slice := fun b =>
    if b.length = 0 then .error .InvalidSecretKey else .ok 0
  ctx_sign := fun _ _ => .ok 0
  serialize_compact := fun _ => List.replicate 64 0
  serialize_compact_len := fun _ => by simp
  serialize_compact_bytes := fun _ b hb => by
    rw [List.eq_of_mem_replicate hb]; omega
  sig_from_compact := fun b =>
    if b.length = 0 then .error .InvalidSignature else .ok 0
  pub_from_slice := fun b =>
    if b.length = 0 then .error .InvalidPublicKey else .ok 0
  ctx_verify := fun _ _ _ => .error .IncorrectSignature
  pub_from_secret := fun _ => .ok 0
  serialize_vec_compressed := fun _ => List.replicate 33 0
  serialize_vec_len := fun _ => by simp
  serialize_vec_bytes := fun _ b hb => by
    rw [List.eq_of_mem_replicate hb]; omega

def ctxB : Secp256k1Ctx where
  sha256 := fun _ => List.replicate 32 0
  sha256_len := fun _ => by simp
  secret_from_slice := fun b =>
    if b.length = 0 then .error .InvalidSecretKey else .ok 0
  ctx_sign := fun _ _ => .error .InvalidMessage
  serialize_compact := fun _ => List.replicate 64 0
  serialize_compact_len := fun _ => by simp
  serialize_compact_bytes := fun _ b hb => by
    rw [List.eq_of_mem_replicate hb]; omega
  sig_from_compact := fun b =>
    if b.length = 0 then .error .InvalidSignature else .ok 0
  pub_from_slice := fun b =>
    if b.length = 0 then .error .InvalidPublicKey else .ok 0
  ctx_verify := fun _ _ _ => .error .InvalidSignature
  pub_from_secret := fun _ => .ok 0
  serialize_vec_compressed := fun _ => List.replicate 33 0
  serialize_vec_len := fun _ => by simp
  serialize_vec_bytes := fun _ b hb => by
    rw [List.eq_of_mem_replicate hb]; omega

/-- C2 witness: all three conjuncts at concrete inputs on `ctxA`/`ctxB`:
an empty key fails scalar validation, `ctxB` fails the signing step, and a
successful signing on `ctxA` yields the 128-character hex string. -/
theorem C2_sign_spec_witness :
    Secp256k1Algorithm.sign ctxA [] ⟨[]⟩ =
      .error (.SigningError .InvalidSecretKey) ∧
    Secp256k1Algorithm.sign ctxB [] ⟨[1]⟩ =
      .error (.SigningError .InvalidMessage) ∧
    Secp256k1Algorithm.sign ctxA [] ⟨[1]⟩ =
      .ok (bytes_to_hex_str (ctxA.serialize_compact 0)) ∧
    (bytes_to_hex_str (ctxA.serialize_compact 0)).length = 128 ∧
    ∀ c ∈ bytes_to_hex_str (ctxA.serialize_compact 0),
      isLowerHexDigit c = true :=
  ⟨C2_sign_spec.1 ctxA [] ⟨[]⟩ .InvalidSecretKey rfl,
   C2_sign_spec.2.1 ctxB [] ⟨[1]⟩ 0 .InvalidMessage rfl rfl,
   C2_sign_spec.2.2 ctxA [] ⟨[1]⟩ 0 0 rfl rfl⟩

/-- C1 witness: each conjunct at concrete inputs: on `ctxA` a one-byte
signature string decodes and verification answers `IncorrectSignature`
(`Ok(false)`); a non-hex signature string gives the position-naming
`ParseError`; an empty signature string decodes to zero bytes, which
`ctxA.sig_from_compact` rejects; an empty public key is rejected; and on
`ctxB` verification fails with `InvalidSignature`, a `SigningError`. -/
theorem C1_verify_error_taxonomy_witness :
    Secp256k1Algorithm.verify ctxA ['a', 'b'] [] ⟨[1]⟩ = some (.ok false) ∧
    (Secp256k1Algorithm.verify ctxA ['z'] [] ⟨[1]⟩ =
      some (.error (.ParseError "invalid character position 0")) ∧
      ∃ m, Error.ParseError "invalid character position 0" =
        .ParseError m) ∧
    Secp256k1Algorithm.verify ctxA [] [] ⟨[1]⟩ =
      some (.error (.SigningError .InvalidSignature)) ∧
    Secp256k1Algorithm.verify ctxA ['a', 'b'] [] ⟨[]⟩ =
      some (.error (.SigningError .InvalidPublicKey)) ∧
    Secp256k1Algorithm.verify ctxB ['a', 'b'] [] ⟨[1]⟩ =
      some (.error (.SigningError .InvalidSignature)) :=
  ⟨(C1_verify_error_taxonomy.1 ctxA ['a', 'b'] [] ⟨[1]⟩).mpr
      ⟨[171], 0, 0, rfl, rfl, rfl, rfl⟩,
   C1_verify_error_taxonomy.2.1 ctxA ['z'] [] ⟨[1]⟩
      (.ParseError "invalid character position 0") rfl,
   C1_verify_error_taxonomy.2.2.1 ctxA [] [] ⟨[1]⟩ [] .InvalidSignature
      rfl rfl,
   C1_verify_error_taxonomy.2.2.2.1 ctxA ['a', 'b'] [] ⟨[]⟩ [171] 0
      .InvalidPublicKey rfl rfl rfl,
   C1_verify_error_taxonomy.2.2.2.2 ctxB ['a', 'b'] [] ⟨[1]⟩ [171] 0 0
      .InvalidSignature rfl rfl rfl rfl (by decide)⟩

/-- C9 witness: on `ctxA`, two structurally equal one-byte keys give the
same derived key, and the derived key has 33 bytes. -/
theorem C9_derive_deterministic_witness :
    Secp256k1Algorithm.get_public_key ctxA ⟨[1]⟩ =
      Secp256k1Algorithm.get_public_key ctxA ⟨[1]⟩ ∧
    (Secp256k1PublicKey.mk (List.replicate 33 0)).private_bytes.length = 33 :=
  ⟨C9_derive_deterministic.1 ctxA ⟨[1]⟩ ⟨[1]⟩ rfl,
   C9_derive_deterministic.2 ctxA ⟨[1]⟩ ⟨List.replicate 33 0⟩ rfl⟩

end Signing
